import Mathlib

/-!
Verification development for the medical-telegram-warehouse repository.

Shallow embedding of the ingestion-and-orchestration engine:
* `PostgresLoader` — `scripts/load_raw_to_postgres.py` (`load_json_files`,
  the `raw.telegram_messages` table with its `UNIQUE(message_id, channel_name)`
  key and `ON CONFLICT ... DO NOTHING` insert);
* `TelegramScraper` — `src/scraper.py` (`scrape_channel`, `scrape_all_channels`,
  `_extract_message_data`, `_download_image`, exception routing);
* `PostgreSQLResource` — `dagster/resources.py` (`execute_query`);
* `Scheduler` — the dependency-graph scheduler (the engine is the Dagster
  library, not part of the repository sources; modelled from the spec), with
  the concrete graph declared by `dagster/jobs.py` (`telegram_pipeline`);
* `CheckpointStore` — modelled from the spec (no checkpoint-store code is
  present under the repository sources).
-/

namespace PostgresLoader

/-- One JSON message object as read from a data-lake file.  Each field is
optional because `load_json_files` reads them with `msg.get(...)`; fields the
loader never reads (`channel_title`, `replies`, `message_type`) are omitted.
`message_date` and `scraped_at` are ISO timestamp strings in the source and
are kept as strings. -/
structure RawMsg where
  message_id : Option Int
  channel_name : Option String
  message_date : Option String
  message_text : Option String
  has_media : Option Bool
  image_path : Option String
  views : Option Int
  forwards : Option Int
  scraped_at : Option String
deriving DecidableEq, Repr

/-- The tuple prepared for insertion: `msg.get` with the defaults used at
`load_raw_to_postgres.py:124-134` (`''` for text and image path, `False` for
`has_media`, `0` for counters, `None` otherwise). -/
structure PrepRecord where
  message_id : Option Int
  channel_name : Option String
  message_date : Option String
  message_text : String
  has_media : Bool
  image_path : String
  views : Int
  forwards : Int
  scraped_at : Option String
deriving DecidableEq, Repr

/-- Record preparation (`load_raw_to_postgres.py:123-135`). -/
def prepare (m : RawMsg) : PrepRecord :=
  { message_id := m.message_id
    channel_name := m.channel_name
    message_date := m.message_date
    message_text := m.message_text.getD ""
    has_media := m.has_media.getD false
    image_path := m.image_path.getD ""
    views := m.views.getD 0
    forwards := m.forwards.getD 0
    scraped_at := m.scraped_at }

/-- A committed row of `raw.telegram_messages`.  `message_id` and
`channel_name` are `NOT NULL` columns, so they are total here; nullable
columns stay optional. -/
structure RawRow where
  message_id : Int
  channel_name : String
  message_date : Option String
  message_text : String
  has_media : Bool
  image_path : String
  views : Int
  forwards : Int
  scraped_at : Option String
deriving DecidableEq, Repr

/-- The raw store: the rows of `raw.telegram_messages` in insertion order. -/
abbrev RawStore := List RawRow

/-- The uniqueness key `UNIQUE(message_id, channel_name)`. -/
def rowKey (r : RawRow) : Int × String := (r.message_id, r.channel_name)

/-- Key lookup in the store. -/
def hasKey (s : RawStore) (k : Int × String) : Bool :=
  s.any fun r => rowKey r = k

/-- The row written for a prepared record whose key columns are non-null. -/
def toRow (mid : Int) (ch : String) (r : PrepRecord) : RawRow :=
  { message_id := mid
    channel_name := ch
    message_date := r.message_date
    message_text := r.message_text
    has_media := r.has_media
    image_path := r.image_path
    views := r.views
    forwards := r.forwards
    scraped_at := r.scraped_at }

/-- A record whose `NOT NULL` key columns cannot be inserted: its statement
raises and aborts the transaction. -/
def badRec (r : PrepRecord) : Bool :=
  r.message_id.isNone || r.channel_name.isNone

/-- The key of a prepared record, when its key columns are non-null. -/
def recKey (r : PrepRecord) : Option (Int × String) :=
  match r.message_id, r.channel_name with
  | some mid, some ch => some (mid, ch)
  | _, _ => none

/-- One `INSERT ... ON CONFLICT (message_id, channel_name) DO NOTHING`
statement: a duplicate key is a silent no-op; a `NULL` key column violates
`NOT NULL` and raises (`none`). -/
def insertOne (s : RawStore) (r : PrepRecord) : Option RawStore :=
  match recKey r with
  | some k => if hasKey s k then some s else some (s ++ [toRow k.1 k.2 r])
  | none => none

/-- `execute_batch`: the statements of one file run sequentially inside one
transaction; the first raising statement aborts the whole transaction. -/
def insertBatch : RawStore → List PrepRecord → Option RawStore
  | s, [] => some s
  | s, r :: rs =>
      match insertOne s r with
      | none => none
      | some s2 => insertBatch s2 rs

/-- One file found by `rglob("*.json")`: either it fails to parse
(`json.JSONDecodeError`, or a payload over which record preparation raises),
or it is a list of message objects. -/
inductive JsonFile
  | malformed
  | messages (msgs : List RawMsg)
deriving DecidableEq, Repr

/-- Execute-and-commit of one prepared batch: on success the transaction is
committed and `len(records)` is added to `records_loaded`; on an exception the
whole transaction is rolled back (line 157) and the count is left unchanged
(the `records_loaded +=` on line 150 is only reached after `commit`). -/
def commitBatch (s : RawStore) (recs : List PrepRecord) : RawStore × Nat :=
  match insertBatch s recs with
  | some s2 => (s2, recs.length)
  | none => (s, 0)

/-- Processing of one file by `load_json_files` (lines 112-157): a malformed
file is logged and skipped; an empty list is skipped (`if not messages`);
otherwise the prepared batch is executed and committed or rolled back.
Returns the new store and the amount added to `records_loaded`. -/
def loadFile (s : RawStore) (f : JsonFile) : RawStore × Nat :=
  match f with
  | .malformed => (s, 0)
  | .messages [] => (s, 0)
  | .messages (m :: ms) => commitBatch s ((m :: ms).map prepare)

/-- `load_json_files`: fold over all files, returning the final store and the
returned `records_loaded` count. -/
def load_json_files (s : RawStore) (files : List JsonFile) : RawStore × Nat :=
  match files with
  | [] => (s, 0)
  | f :: fs =>
      let p := loadFile s f
      let q := load_json_files p.1 fs
      (q.1, p.2 + q.2)

/-- A file whose processing raises inside the `try` of lines 113-157: it
fails to parse, or its batch contains a record violating `NOT NULL`. -/
def fileAborts (f : JsonFile) : Bool :=
  match f with
  | .malformed => true
  | .messages msgs => (msgs.map prepare).any badRec

theorem badRec_eq_true_iff {r : PrepRecord} : badRec r = true ↔ recKey r = none := by
  rcases hm : r.message_id with _ | mid <;> rcases hc : r.channel_name with _ | ch <;>
    simp [badRec, recKey, hm, hc]

theorem badRec_eq_false_iff {r : PrepRecord} :
    badRec r = false ↔ ∃ k, recKey r = some k := by
  rcases hm : r.message_id with _ | mid <;> rcases hc : r.channel_name with _ | ch <;>
    simp [badRec, recKey, hm, hc]

theorem insertOne_eq_some {s : RawStore} {r : PrepRecord} {k : Int × String}
    (hk : recKey r = some k) :
    insertOne s r = if hasKey s k then some s else some (s ++ [toRow k.1 k.2 r]) := by
  simp [insertOne, hk]

theorem insertOne_eq_none {s : RawStore} {r : PrepRecord}
    (hk : recKey r = none) : insertOne s r = none := by
  simp [insertOne, hk]

theorem insertOne_grows {s t : RawStore} {r : PrepRecord}
    (h : insertOne s r = some t) : ∀ x ∈ s, x ∈ t := by
  rcases hk : recKey r with _ | k
  · rw [insertOne_eq_none hk] at h
    cases h
  · rw [insertOne_eq_some hk] at h
    by_cases hks : hasKey s k = true
    · rw [if_pos hks] at h
      cases h
      simp
    · rw [if_neg hks] at h
      cases h
      intro x hx
      simp [hx]

theorem insertOne_isNone_iff {s : RawStore} {r : PrepRecord} :
    insertOne s r = none ↔ recKey r = none := by
  rcases hk : recKey r with _ | k
  · simp [insertOne_eq_none hk]
  · rw [insertOne_eq_some hk]
    by_cases hks : hasKey s k = true
    · simp [if_pos hks]
    · simp [if_neg hks]

theorem insertBatch_grows :
    ∀ {rs : List PrepRecord} {s t : RawStore}, insertBatch s rs = some t →
      ∀ x ∈ s, x ∈ t
  | [], s, t, h => by simp only [insertBatch, Option.some.injEq] at h; simp [h]
  | r :: rs, s, t, h => by
      unfold insertBatch at h
      rcases h1 : insertOne s r with _ | s2 <;> rw [h1] at h
      · exact absurd h (by simp)
      · intro x hx
        exact insertBatch_grows h x (insertOne_grows h1 x hx)

theorem insertBatch_isNone_iff :
    ∀ {rs : List PrepRecord} (s : RawStore),
      insertBatch s rs = none ↔ rs.any badRec = true
  | [], s => by simp [insertBatch]
  | r :: rs, s => by
      unfold insertBatch
      rcases h1 : insertOne s r with _ | s2
      · have : recKey r = none := insertOne_isNone_iff.mp h1
        simp [badRec_eq_true_iff, this]
      · have : recKey r ≠ none := by
          intro hc
          rw [← insertOne_isNone_iff (s := s)] at hc
          simp [h1] at hc
        have hb : badRec r = false := by
          rcases hx : badRec r with _ | _
          · rfl
          · exact absurd (badRec_eq_true_iff.mp hx) this
        simp [hb, insertBatch_isNone_iff s2]

theorem hasKey_mono {s t : RawStore} (hst : ∀ x ∈ s, x ∈ t) {k : Int × String}
    (h : hasKey s k = true) : hasKey t k = true := by
  simp only [hasKey, List.any_eq_true, decide_eq_true_eq] at h ⊢
  obtain ⟨r, hr, hkr⟩ := h
  exact ⟨r, hst r hr, hkr⟩

theorem rowKey_toRow (mid : Int) (ch : String) (r : PrepRecord) :
    rowKey (toRow mid ch r) = (mid, ch) := rfl

theorem insertBatch_hasKey :
    ∀ {rs : List PrepRecord} {s t : RawStore}, insertBatch s rs = some t →
      ∀ r ∈ rs, ∀ k, recKey r = some k → hasKey t k = true
  | [], s, t, h => by simp
  | r0 :: rs, s, t, h => by
      unfold insertBatch at h
      rcases h1 : insertOne s r0 with _ | s1 <;> rw [h1] at h
      · exact absurd h (by simp)
      · intro r hr k hk
        rcases List.mem_cons.mp hr with hr0 | hrs
        · subst hr0
          have hs1 : hasKey s1 k = true := by
            rw [insertOne_eq_some hk] at h1
            by_cases hks : hasKey s k = true
            · rw [if_pos hks] at h1
              cases h1
              exact hks
            · rw [if_neg hks] at h1
              cases h1
              simp [hasKey, rowKey_toRow]
          exact hasKey_mono (insertBatch_grows h) hs1
        · exact insertBatch_hasKey h r hrs k hk

theorem insertBatch_noop :
    ∀ {rs : List PrepRecord} {s : RawStore},
      (∀ r ∈ rs, ∀ k, recKey r = some k → hasKey s k = true) →
      rs.any badRec = false →
      insertBatch s rs = some s
  | [], s, _, _ => rfl
  | r :: rs, s, hkeys, hgood => by
      simp only [List.any_cons, Bool.or_eq_false_iff] at hgood
      obtain ⟨k, hk⟩ := badRec_eq_false_iff.mp hgood.1
      have h1 : insertOne s r = some s := by
        rw [insertOne_eq_some hk, if_pos (hkeys r (List.mem_cons_self r rs) k hk)]
      unfold insertBatch
      rw [h1]
      exact insertBatch_noop (fun r hr => hkeys r (List.mem_cons_of_mem _ hr)) hgood.2

theorem insertBatch_length :
    ∀ {rs : List PrepRecord} {s t : RawStore}, insertBatch s rs = some t →
      t.length ≤ s.length + rs.length
  | [], s, t, h => by
      simp only [insertBatch, Option.some.injEq] at h
      simp [← h]
  | r :: rs, s, t, h => by
      unfold insertBatch at h
      rcases h1 : insertOne s r with _ | s1 <;> rw [h1] at h
      · exact absurd h (by simp)
      · have hlen : s1.length ≤ s.length + 1 := by
          rcases hk : recKey r with _ | k
          · rw [insertOne_eq_none hk] at h1
            cases h1
          · rw [insertOne_eq_some hk] at h1
            by_cases hks : hasKey s k = true
            · rw [if_pos hks] at h1
              cases h1
              omega
            · rw [if_neg hks] at h1
              cases h1
              simp
        calc t.length ≤ s1.length + rs.length := insertBatch_length h
          _ ≤ s.length + 1 + rs.length := by omega
          _ = s.length + (r :: rs).length := by simp; omega

theorem commitBatch_eq_some {s : RawStore} {recs : List PrepRecord} {s2 : RawStore}
    (h : insertBatch s recs = some s2) : commitBatch s recs = (s2, recs.length) := by
  simp [commitBatch, h]

theorem commitBatch_eq_none {s : RawStore} {recs : List PrepRecord}
    (h : insertBatch s recs = none) : commitBatch s recs = (s, 0) := by
  simp [commitBatch, h]

theorem commitBatch_grows (s : RawStore) (recs : List PrepRecord) :
    ∀ x ∈ s, x ∈ (commitBatch s recs).1 := by
  rcases h : insertBatch s recs with _ | s2
  · rw [commitBatch_eq_none h]
    simp
  · rw [commitBatch_eq_some h]
    exact insertBatch_grows h

theorem loadFile_grows (s : RawStore) (f : JsonFile) :
    ∀ x ∈ s, x ∈ (loadFile s f).1 := by
  rcases f with _ | (_ | ⟨m, ms⟩)
  · simp [loadFile]
  · simp [loadFile]
  · exact commitBatch_grows s ((m :: ms).map prepare)

theorem load_json_files_grows :
    ∀ (files : List JsonFile) (s : RawStore), ∀ x ∈ s, x ∈ (load_json_files s files).1
  | [], s => by simp [load_json_files]
  | f :: fs, s => by
      intro x hx
      unfold load_json_files
      exact load_json_files_grows fs (loadFile s f).1 x (loadFile_grows s f x hx)

theorem loadFile_of_aborts {f : JsonFile} (h : fileAborts f = true) (s : RawStore) :
    loadFile s f = (s, 0) := by
  rcases f with _ | (_ | ⟨m, ms⟩)
  · rfl
  · rfl
  · have hb : ((m :: ms).map prepare).any badRec = true := h
    show commitBatch s ((m :: ms).map prepare) = (s, 0)
    exact commitBatch_eq_none ((insertBatch_isNone_iff s).mpr hb)

theorem loadFile_noop_of_keys {s t : RawStore} {f : JsonFile}
    (h : ∀ x ∈ (loadFile s f).1, x ∈ t) : (loadFile t f).1 = t := by
  rcases f with _ | (_ | ⟨m, ms⟩)
  · rfl
  · rfl
  · rcases hb : ((m :: ms).map prepare).any badRec with _ | _
    · rcases h1 : insertBatch s ((m :: ms).map prepare) with _ | s1
      · rw [insertBatch_isNone_iff s] at h1
        rw [h1] at hb
        cases hb
      · have hsf : (loadFile s (JsonFile.messages (m :: ms))).1 = s1 := by
          show (commitBatch s ((m :: ms).map prepare)).1 = s1
          rw [commitBatch_eq_some h1]
        rw [hsf] at h
        have hkeys : ∀ r ∈ (m :: ms).map prepare, ∀ k, recKey r = some k →
            hasKey t k = true := by
          intro r hr k hk
          exact hasKey_mono h (insertBatch_hasKey h1 r hr k hk)
        show (commitBatch t ((m :: ms).map prepare)).1 = t
        rw [commitBatch_eq_some (insertBatch_noop hkeys hb)]
    · show (commitBatch t ((m :: ms).map prepare)).1 = t
      rw [commitBatch_eq_none ((insertBatch_isNone_iff t).mpr hb)]

theorem load_noop_of_grows :
    ∀ (files : List JsonFile) (s t : RawStore),
      (∀ x ∈ (load_json_files s files).1, x ∈ t) →
      (load_json_files t files).1 = t
  | [], s, t, h => rfl
  | f :: fs, s, t, h => by
      have hdecomp : (load_json_files s (f :: fs)).1
          = (load_json_files (loadFile s f).1 fs).1 := rfl
      rw [hdecomp] at h
      have hgrow : ∀ x ∈ (loadFile s f).1, x ∈ t := by
        intro x hx
        exact h x (load_json_files_grows fs (loadFile s f).1 x hx)
      have hfile : (loadFile t f).1 = t := loadFile_noop_of_keys hgrow
      have hmain : (load_json_files (loadFile t f).1 fs).1 = t := by
        rw [hfile]
        exact load_noop_of_grows fs (loadFile s f).1 t h
      exact hmain

theorem commitBatch_length (s : RawStore) (recs : List PrepRecord) :
    (commitBatch s recs).1.length ≤ s.length + (commitBatch s recs).2 := by
  rcases h : insertBatch s recs with _ | s2
  · rw [commitBatch_eq_none h]
    simp
  · rw [commitBatch_eq_some h]
    exact insertBatch_length h

theorem loadFile_length (s : RawStore) (f : JsonFile) :
    (loadFile s f).1.length ≤ s.length + (loadFile s f).2 := by
  rcases f with _ | (_ | ⟨m, ms⟩)
  · simp [loadFile]
  · simp [loadFile]
  · exact commitBatch_length s ((m :: ms).map prepare)

theorem load_json_files_length :
    ∀ (files : List JsonFile) (s : RawStore),
      (load_json_files s files).1.length ≤ s.length + (load_json_files s files).2
  | [], s => by simp [load_json_files]
  | f :: fs, s => by
      have h1 := loadFile_length s f
      have h2 := load_json_files_length fs (loadFile s f).1
      show (load_json_files (loadFile s f).1 fs).1.length
          ≤ s.length + ((loadFile s f).2 + (load_json_files (loadFile s f).1 fs).2)
      omega

theorem load_skip_bad_file :
    ∀ (pre : List JsonFile) (s : RawStore) (post : List JsonFile) {f : JsonFile},
      fileAborts f = true →
      load_json_files s (pre ++ f :: post) = load_json_files s (pre ++ post)
  | [], s, post, f, h => by
      have hp : loadFile s f = (s, 0) := loadFile_of_aborts h s
      show ((load_json_files (loadFile s f).1 post).1,
            (loadFile s f).2 + (load_json_files (loadFile s f).1 post).2)
          = load_json_files s post
      rw [hp]
      simp
  | g :: pre, s, post, f, h => by
      have ih := load_skip_bad_file pre (loadFile s g).1 post h
      show ((load_json_files (loadFile s g).1 (pre ++ f :: post)).1,
            (loadFile s g).2 + (load_json_files (loadFile s g).1 (pre ++ f :: post)).2)
          = ((load_json_files (loadFile s g).1 (pre ++ post)).1,
             (loadFile s g).2 + (load_json_files (loadFile s g).1 (pre ++ post)).2)
      rw [ih]

/-- A well-formed sample message, used in concrete evaluations. -/
def sampleMsg : RawMsg :=
  { message_id := some 1
    channel_name := some "chanA"
    message_date := some "2024-01-01T00:00:00+00:00"
    message_text := some "paracetamol 500mg in stock"
    has_media := some false
    image_path := none
    views := some 5
    forwards := some 2
    scraped_at := some "2024-01-02T00:00:00+00:00" }

/-- A malformed sample message: its `message_id` is missing, so its insert
statement violates the `NOT NULL` constraint and raises. -/
def sampleBadMsg : RawMsg :=
  { message_id := none
    channel_name := some "chanA"
    message_date := none
    message_text := none
    has_media := none
    image_path := none
    views := none
    forwards := none
    scraped_at := none }

/-- The row committed for `sampleMsg`. -/
def sampleRow : RawRow := toRow 1 "chanA" (prepare sampleMsg)

/-- C1: loading the same batch of records a second time is a no-op at the raw
store — rows with an already-present `(message_id, channel_name)` key are left
untouched (first conjunct: pre-existing rows survive any load), no error is
raised (`load_json_files` is total), and the raw-store content after the
second load of any batch of files equals the content after the first load
(second conjunct), hence equal row count as well. -/
theorem load_json_files_idempotent (s : RawStore) (files : List JsonFile) :
    (∀ x ∈ s, x ∈ (load_json_files s files).1)
    ∧ (load_json_files (load_json_files s files).1 files).1
        = (load_json_files s files).1 :=
  ⟨load_json_files_grows files s,
   load_noop_of_grows files s (load_json_files s files).1 (fun _ hx => hx)⟩

/-- C6 counterexample: with the row for `sampleMsg` already stored, re-loading
a file containing exactly that record inserts nothing (the store is unchanged)
yet `load_json_files` still returns a count of 1 — the returned count does not
exclude records skipped by the conflict policy. -/
theorem load_count_counts_conflict_skipped :
    (load_json_files [sampleRow] [JsonFile.messages [sampleMsg]]).2 = 1
    ∧ (load_json_files [sampleRow] [JsonFile.messages [sampleMsg]]).1
        = [sampleRow] := by
  constructor <;> rfl

/-- C6 amended: the count returned by the batch-load operation is the number
of records read and submitted from files whose transaction committed — it
includes records whose key already existed and were skipped by the conflict
policy, so it is an upper bound on (not the exact number of) rows actually
inserted: final store size ≤ initial store size + returned count. -/
theorem load_count_bounds_inserted (s : RawStore) (files : List JsonFile) :
    (load_json_files s files).1.length ≤ s.length + (load_json_files s files).2 :=
  load_json_files_length files s

/-- C8 counterexample: a batch (file) holding the well-formed `sampleMsg`
together with the malformed `sampleBadMsg` is rolled back in its entirety —
nothing is loaded (first conjunct), although the same well-formed record loads
fine on its own (second conjunct).  One bad record does discard the rest of
its batch. -/
theorem single_bad_record_discards_file_batch :
    (load_json_files [] [JsonFile.messages [sampleMsg, sampleBadMsg]]).1 = []
    ∧ (load_json_files [] [JsonFile.messages [sampleMsg]]).1 = [sampleRow] := by
  constructor <;> rfl

/-- C8 amended: the loader's fault containment is per file, not per record: a
file whose batch raises (a malformed record, or an unparseable file) is
logged, rolled back and skipped in its entirety — every other file of the run
still loads exactly as if the bad file were absent, but the well-formed
records of the bad file itself are discarded with it. -/
theorem bad_file_skipped_other_files_load (s : RawStore)
    (pre post : List JsonFile) (f : JsonFile) (h : fileAborts f = true) :
    load_json_files s (pre ++ f :: post) = load_json_files s (pre ++ post) :=
  load_skip_bad_file pre s post h

/-- Witness for the C8 amended theorem at a concrete input. -/
theorem bad_file_skipped_other_files_load_witness :
    fileAborts (JsonFile.messages [sampleBadMsg]) = true
    ∧ load_json_files [] [JsonFile.messages [sampleMsg],
        JsonFile.messages [sampleBadMsg]]
      = load_json_files [] [JsonFile.messages [sampleMsg]] :=
  ⟨by rfl,
   bad_file_skipped_other_files_load [] [JsonFile.messages [sampleMsg]] []
     (JsonFile.messages [sampleBadMsg]) (by rfl)⟩

end PostgresLoader

namespace TelegramScraper

/-- Kind of media attached to a message, as discriminated by
`_get_message_type` and `_download_image` (`MessageMediaPhoto` vs others). -/
inductive MediaKind
  | photo
  | document
  | video
  | otherMedia
deriving DecidableEq, Repr

/-- One message as produced by the source iterator
(`client.iter_messages`).  `date` is the message timestamp (ISO timestamps
are order-isomorphic to integers); `content` is `message.message`, `none` for
service or media-only messages. -/
structure MsgIn where
  id : Int
  date : Int
  content : Option String
  media : Option MediaKind
  views : Option Int
  forwards : Option Int
deriving DecidableEq, Repr

/-- Exceptions the source can raise during iteration: a `FloodWaitError`
carrying the mandated wait, a `ChannelPrivateError`, or any other error. -/
inductive ExcKind
  | floodWait (seconds : Nat)
  | privateChannel
  | networkErr
deriving DecidableEq, Repr

/-- One step of the source iterator: it yields a message or raises. -/
inductive StreamItem
  | msg (m : MsgIn)
  | exc (e : ExcKind)
deriving DecidableEq, Repr

/-- The record built by `_extract_message_data` (`scraper.py:235-265`);
fields not read downstream (`channel_title`, `replies`, `message_type`,
`scraped_at`) are omitted. -/
structure MsgOut where
  message_id : Int
  channel_name : String
  message_date : Int
  message_text : String
  has_media : Bool
  image_path : String
  views : Int
  forwards : Int
deriving DecidableEq, Repr

/-- `_extract_message_data`: text defaults to the empty string, `has_media`
is the truthiness of `message.media`, the image path is filled only for
photo media, counters default to 0. -/
def extract_message_data (ch : String) (m : MsgIn) : MsgOut :=
  { message_id := m.id
    channel_name := ch
    message_date := m.date
    message_text := m.content.getD ""
    has_media := m.media.isSome
    image_path :=
      if m.media = some MediaKind.photo then
        "data/raw/images/" ++ ch ++ "/" ++ toString m.id ++ ".jpg"
      else ""
    views := m.views.getD 0
    forwards := m.forwards.getD 0 }

/-- `_download_image` (`scraper.py:292-312`): attempts a download only for
`MessageMediaPhoto`; every exception is caught inside and turns into `False`,
so a failed download never propagates.  The oracle `dl` says whether the
download of a given message succeeds. -/
def download_image (dl : Int → Bool) (m : MsgIn) : Bool :=
  match m.media with
  | some MediaKind.photo => dl m.id
  | _ => false

/-- Result of the message-iteration loop of `scrape_channel`
(`scraper.py:191-218`): extracted records in order, successful image count,
number of items pulled from the iterator, and the exception that aborted the
loop, if any. -/
structure LoopResult where
  messages : List MsgOut
  imageCount : Nat
  consumed : Nat
  exc : Option ExcKind
deriving DecidableEq, Repr

/-- The `async for message in self.client.iter_messages(...)` loop: breaks at
the first message older than `start_date`; skips service messages
(`message.message is None and message.media is None`); otherwise extracts the
record, appends it, and attempts the image download when media is present.
An exception raised by the iterator aborts the loop, keeping the records
accumulated so far. -/
def scrapeLoop (ch : String) (startDate : Int) (dl : Int → Bool) :
    List StreamItem → LoopResult
  | [] => { messages := [], imageCount := 0, consumed := 0, exc := none }
  | .exc e :: _ => { messages := [], imageCount := 0, consumed := 1, exc := some e }
  | .msg m :: rest =>
      if m.date < startDate then
        { messages := [], imageCount := 0, consumed := 1, exc := none }
      else if m.content.isNone && m.media.isNone then
        let r := scrapeLoop ch startDate dl rest
        { r with consumed := r.consumed + 1 }
      else
        let out := extract_message_data ch m
        let di : Nat :=
          if out.has_media && m.media.isSome then
            (if download_image dl m then 1 else 0)
          else 0
        let r := scrapeLoop ch startDate dl rest
        { messages := out :: r.messages
          imageCount := di + r.imageCount
          consumed := r.consumed + 1
          exc := r.exc }

/-- Result of `scrape_channel` for one channel. -/
structure ChanResult where
  messages : List MsgOut
  imageCount : Nat
  consumed : Nat
  failed : Bool
deriving DecidableEq, Repr

/-- `scrape_channel` (`scraper.py:159-233`): runs the iteration loop and
catches every exception — both the `except ChannelPrivateError` arm and the
generic `except Exception` arm append the channel to `failed_channels` and
fall through to `return messages_data`, keeping the partial records.  Note
`FloodWaitError` is a subclass of `Exception`, so a flood-wait raised during
iteration is caught HERE, not by the dedicated handler in
`scrape_all_channels`. -/
def scrape_channel (ch : String) (startDate : Int) (dl : Int → Bool)
    (stream : List StreamItem) : ChanResult :=
  let r := scrapeLoop ch startDate dl stream
  { messages := r.messages
    imageCount := r.imageCount
    consumed := r.consumed
    failed := r.exc.isSome }

/-- The `self.stats` dictionary of the scraper, plus the trace of
`asyncio.sleep` durations performed by `scrape_all_channels`. -/
structure Stats where
  channels_scraped : Nat
  messages_scraped : Nat
  images_downloaded : Nat
  failed_channels : List String
  sleeps : List Nat
deriving DecidableEq, Repr

/-- The environment of one run: per-channel validation outcome
(`validate_channel` returns `False` for private/missing channels and catches
every exception), the per-channel source iterator script, the per-channel
download oracle, and the computed `start_date` bound. -/
structure RunEnv where
  valid : String → Bool
  stream : String → List StreamItem
  downloadOk : String → Int → Bool
  startDate : Int

/-- Initial statistics (`scraper.py:85-90`). -/
def initStats : Stats :=
  { channels_scraped := 0
    messages_scraped := 0
    images_downloaded := 0
    failed_channels := []
    sleeps := [] }

/-- One iteration of the `for channel in self.channels` loop of
`scrape_all_channels` (`scraper.py:358-389`): an invalid channel is recorded
as failed and skipped; otherwise `scrape_channel` runs — on a clean pass its
counts are added to the stats, on an exception the channel was appended to
`failed_channels` and the counts are not added — and if any records came back
they are saved, `channels_scraped` is incremented and the 10-second pause is
slept.  No exception escapes one iteration, so the loop always continues with
the remaining channels. -/
def stepChannel (env : RunEnv) (st : Stats) (ch : String) : Stats :=
  if env.valid ch = false then
    { st with failed_channels := st.failed_channels ++ [ch] }
  else
    let r := scrape_channel ch env.startDate (env.downloadOk ch) (env.stream ch)
    let st1 :=
      if r.failed then
        { st with failed_channels := st.failed_channels ++ [ch] }
      else
        { st with
            messages_scraped := st.messages_scraped + r.messages.length
            images_downloaded := st.images_downloaded + r.imageCount }
    if r.messages.isEmpty then st1
    else
      { st1 with
          channels_scraped := st1.channels_scraped + 1
          sleeps := st1.sleeps ++ [10] }

/-- `scrape_all_channels`: the per-channel loop over the configured list. -/
def scrape_all_channels (env : RunEnv) (channels : List String) : Stats :=
  channels.foldl (stepChannel env) initStats

/-- A channel ends up in `failed_channels`: it fails validation, or its
scrape aborts on an exception. -/
def channelFails (env : RunEnv) (ch : String) : Bool :=
  !env.valid ch
  || (scrape_channel ch env.startDate (env.downloadOk ch) (env.stream ch)).failed

/-- The contribution of one channel to `stats.messages_scraped` (added only
on a clean pass of `scrape_channel`). -/
def chanMessages (env : RunEnv) (ch : String) : Nat :=
  if env.valid ch = false then 0
  else
    let r := scrape_channel ch env.startDate (env.downloadOk ch) (env.stream ch)
    if r.failed then 0 else r.messages.length

/-- The timestamps of the messages a stream yields, in stream order. -/
def streamDates (items : List StreamItem) : List Int :=
  items.filterMap fun i =>
    match i with
    | .msg m => some m.date
    | .exc _ => none

theorem streamDates_map_msg :
    ∀ msgs : List MsgIn,
      streamDates (msgs.map StreamItem.msg) = msgs.map fun m => m.date
  | [] => rfl
  | m :: rest => by
      simp only [List.map_cons, streamDates, List.filterMap_cons]
      exact congrArg _ (streamDates_map_msg rest)

theorem scrapeLoop_oracle_independent (ch : String) (start : Int)
    (dl1 dl2 : Int → Bool) :
    ∀ items : List StreamItem,
      (scrapeLoop ch start dl1 items).messages
          = (scrapeLoop ch start dl2 items).messages
      ∧ (scrapeLoop ch start dl1 items).consumed
          = (scrapeLoop ch start dl2 items).consumed
      ∧ (scrapeLoop ch start dl1 items).exc
          = (scrapeLoop ch start dl2 items).exc
  | [] => ⟨rfl, rfl, rfl⟩
  | .exc e :: rest => ⟨rfl, rfl, rfl⟩
  | .msg m :: rest => by
      have ih := scrapeLoop_oracle_independent ch start dl1 dl2 rest
      by_cases h1 : m.date < start
      · simp [scrapeLoop, h1]
      · by_cases h2 : (m.content.isNone && m.media.isNone) = true
        · simp [scrapeLoop, h1, h2, ih.1, ih.2.1, ih.2.2]
        · simp [scrapeLoop, h1, h2, ih.1, ih.2.1, ih.2.2]

theorem scrapeLoop_dates_sublist (ch : String) (start : Int) (dl : Int → Bool) :
    ∀ items : List StreamItem,
      List.Sublist
        ((scrapeLoop ch start dl items).messages.map fun o => o.message_date)
        (streamDates items)
  | [] => List.Sublist.refl _
  | .exc e :: rest => by
      simp [scrapeLoop]
  | .msg m :: rest => by
      have ih := scrapeLoop_dates_sublist ch start dl rest
      by_cases h1 : m.date < start
      · simp [scrapeLoop, h1]
      · by_cases h2 : (m.content.isNone && m.media.isNone) = true
        · simp only [scrapeLoop, if_neg h1, if_pos h2, streamDates,
            List.filterMap_cons]
          exact ih.cons m.date
        · simp only [scrapeLoop, if_neg h1, if_neg h2, streamDates,
            List.filterMap_cons, List.map_cons]
          exact ih.cons₂ m.date

theorem scrapeLoop_consumes_all (ch : String) (start : Int) (dl : Int → Bool) :
    ∀ msgs : List MsgIn, (∀ m ∈ msgs, ¬ m.date < start) →
      (scrapeLoop ch start dl (msgs.map StreamItem.msg)).consumed = msgs.length
      ∧ (scrapeLoop ch start dl (msgs.map StreamItem.msg)).exc = none
  | [], _ => ⟨rfl, rfl⟩
  | m :: rest, h => by
      have h1 : ¬ m.date < start := h m (List.mem_cons_self m rest)
      have ih := scrapeLoop_consumes_all ch start dl rest
        (fun x hx => h x (List.mem_cons_of_mem _ hx))
      by_cases h2 : (m.content.isNone && m.media.isNone) = true
      · simp [scrapeLoop, h1, h2, ih.1, ih.2]
      · simp [scrapeLoop, h1, h2, ih.1, ih.2]

theorem scrapeLoop_stops_at_old (ch : String) (start : Int) (dl : Int → Bool) :
    ∀ (pre : List MsgIn) (m : MsgIn) (post : List StreamItem),
      (∀ x ∈ pre, ¬ x.date < start) → m.date < start →
      (scrapeLoop ch start dl
          (pre.map StreamItem.msg ++ StreamItem.msg m :: post)).consumed
        = pre.length + 1
  | [], m, post, _, hm => by simp [scrapeLoop, hm]
  | g :: pre, m, post, hpre, hm => by
      have h1 : ¬ g.date < start := hpre g (List.mem_cons_self g pre)
      have ih := scrapeLoop_stops_at_old ch start dl pre m post
        (fun x hx => hpre x (List.mem_cons_of_mem _ hx)) hm
      by_cases h2 : (g.content.isNone && g.media.isNone) = true
      · simp [scrapeLoop, h1, h2, ih]
      · simp [scrapeLoop, h1, h2, ih]

theorem scrapeLoop_exc_aborts (ch : String) (start : Int) (dl : Int → Bool) :
    ∀ (pre : List MsgIn) (e : ExcKind) (post : List StreamItem),
      (∀ x ∈ pre, ¬ x.date < start) →
      (scrapeLoop ch start dl
          (pre.map StreamItem.msg ++ StreamItem.exc e :: post)).exc = some e
      ∧ (scrapeLoop ch start dl
          (pre.map StreamItem.msg ++ StreamItem.exc e :: post)).consumed
        = pre.length + 1
      ∧ (scrapeLoop ch start dl
          (pre.map StreamItem.msg ++ StreamItem.exc e :: post)).messages
        = (scrapeLoop ch start dl (pre.map StreamItem.msg)).messages
  | [], e, post, _ => ⟨rfl, rfl, rfl⟩
  | g :: pre, e, post, hpre => by
      have h1 : ¬ g.date < start := hpre g (List.mem_cons_self g pre)
      have ih := scrapeLoop_exc_aborts ch start dl pre e post
        (fun x hx => hpre x (List.mem_cons_of_mem _ hx))
      by_cases h2 : (g.content.isNone && g.media.isNone) = true
      · simp [scrapeLoop, h1, h2, ih.1, ih.2.1, ih.2.2]
      · simp [scrapeLoop, h1, h2, ih.1, ih.2.1, ih.2.2]

theorem stepChannel_failed (env : RunEnv) (st : Stats) (ch : String) :
    (stepChannel env st ch).failed_channels
      = st.failed_channels ++ (if channelFails env ch then [ch] else []) := by
  unfold stepChannel channelFails
  by_cases hv : env.valid ch = false
  · simp [hv]
  · have hv2 : env.valid ch = true := by
      rcases hx : env.valid ch with _ | _
      · exact absurd hx hv
      · rfl
    by_cases hf : (scrape_channel ch env.startDate (env.downloadOk ch)
        (env.stream ch)).failed = true
    · by_cases he : (scrape_channel ch env.startDate (env.downloadOk ch)
          (env.stream ch)).messages.isEmpty = true
      · simp [hv, hv2, hf, he]
      · simp [hv, hv2, hf, he]
    · by_cases he : (scrape_channel ch env.startDate (env.downloadOk ch)
          (env.stream ch)).messages.isEmpty = true
      · simp [hv, hv2, hf, he]
      · simp [hv, hv2, hf, he]

theorem stepChannel_messages (env : RunEnv) (st : Stats) (ch : String) :
    (stepChannel env st ch).messages_scraped
      = st.messages_scraped + chanMessages env ch := by
  unfold stepChannel chanMessages
  by_cases hv : env.valid ch = false
  · simp [hv]
  · by_cases hf : (scrape_channel ch env.startDate (env.downloadOk ch)
        (env.stream ch)).failed = true
    · by_cases he : (scrape_channel ch env.startDate (env.downloadOk ch)
          (env.stream ch)).messages.isEmpty = true
      · simp [hv, hf, he]
      · simp [hv, hf, he]
    · by_cases he : (scrape_channel ch env.startDate (env.downloadOk ch)
          (env.stream ch)).messages.isEmpty = true
      · simp [hv, hf, he]
      · simp [hv, hf, he]

theorem foldl_failed_channels (env : RunEnv) :
    ∀ (channels : List String) (st : Stats),
      (channels.foldl (stepChannel env) st).failed_channels
        = st.failed_channels ++ channels.filter (channelFails env)
  | [], st => by simp
  | ch :: rest, st => by
      have ih := foldl_failed_channels env rest (stepChannel env st ch)
      simp only [List.foldl_cons] at ih ⊢
      rw [ih, stepChannel_failed]
      by_cases hc : channelFails env ch = true
      · simp [hc, List.filter_cons]
      · simp [hc, List.filter_cons]

theorem foldl_messages_scraped (env : RunEnv) :
    ∀ (channels : List String) (st : Stats),
      (channels.foldl (stepChannel env) st).messages_scraped
        = st.messages_scraped + (channels.map (chanMessages env)).sum
  | [], st => by simp
  | ch :: rest, st => by
      have ih := foldl_messages_scraped env rest (stepChannel env st ch)
      simp only [List.foldl_cons] at ih ⊢
      rw [ih, stepChannel_messages]
      simp [List.sum_cons]
      omega

/-- A sample in-range text message. -/
def msgA : MsgIn :=
  { id := 101, date := 101, content := some "amoxicillin available"
    media := none, views := some 1, forwards := none }

/-- A sample in-range photo message. -/
def msgB : MsgIn :=
  { id := 102, date := 102, content := some "price list"
    media := some MediaKind.photo, views := none, forwards := some 3 }

/-- A sample message fetched before the flood-wait signal. -/
def floodMsg : MsgIn :=
  { id := 10, date := 5, content := some "promo"
    media := none, views := none, forwards := none }

/-- A run over one channel whose iterator yields one message and then raises
`FloodWaitError(60)`. -/
def floodEnv : RunEnv :=
  { valid := fun _ => true
    stream := fun _ => [StreamItem.msg floodMsg,
                        StreamItem.exc (ExcKind.floodWait 60)]
    downloadOk := fun _ _ => false
    startDate := 0 }

/-- C5: for a partition fetch over an error-free source iterator whose
messages come in increasing timestamp order (the `reverse=True` contract of
the source), (1) the records are yielded in increasing timestamp order,
(2) if no fetched message is older than the `since` bound, iteration consumes
the whole stream, i.e. stops exactly at stream end ("page empty"), and
(3) iteration stops exactly at the first fetched message older than the
`since` bound: the items consumed are the in-range ones plus that message. -/
theorem scrape_channel_order_and_stop (ch : String) (start : Int)
    (dl : Int → Bool) (msgs : List MsgIn)
    (hsort : (msgs.map fun m => m.date).Pairwise (· ≤ ·)) :
    (((scrape_channel ch start dl (msgs.map StreamItem.msg)).messages.map
        fun o => o.message_date).Pairwise (· ≤ ·))
    ∧ ((∀ m ∈ msgs, ¬ m.date < start) →
        (scrape_channel ch start dl (msgs.map StreamItem.msg)).consumed
          = msgs.length)
    ∧ (∀ pre m post, msgs = pre ++ m :: post →
        (∀ x ∈ pre, ¬ x.date < start) → m.date < start →
        (scrape_channel ch start dl (msgs.map StreamItem.msg)).consumed
          = pre.length + 1) := by
  refine ⟨?_, ?_, ?_⟩
  · have hsub := scrapeLoop_dates_sublist ch start dl (msgs.map StreamItem.msg)
    rw [streamDates_map_msg] at hsub
    exact List.Pairwise.sublist hsub hsort
  · intro h
    exact (scrapeLoop_consumes_all ch start dl msgs h).1
  · intro pre m post heq hpre hm
    subst heq
    show (scrapeLoop ch start dl ((pre ++ m :: post).map StreamItem.msg)).consumed
        = pre.length + 1
    rw [List.map_append, List.map_cons]
    exact scrapeLoop_stops_at_old ch start dl pre m (post.map StreamItem.msg)
      hpre hm

/-- Witness for C5 at a concrete sorted, in-range stream. -/
theorem scrape_channel_order_and_stop_witness :
    (((scrape_channel "chanA" 100 (fun _ => true)
        ([msgA, msgB].map StreamItem.msg)).messages.map
          fun o => o.message_date).Pairwise (· ≤ ·))
    ∧ (scrape_channel "chanA" 100 (fun _ => true)
        ([msgA, msgB].map StreamItem.msg)).consumed = 2 := by
  have h := scrape_channel_order_and_stop "chanA" 100 (fun _ => true)
    [msgA, msgB] (by decide)
  refine ⟨h.1, ?_⟩
  have h2 := h.2.1 (by decide)
  simpa using h2

/-- C7: failure of the attachment download never fails the record.  The list
of records yielded by a partition fetch, and whether the partition is marked
failed, are independent of the download oracle — in particular they are the
same when every download fails as when every download succeeds; a failed
download only loses that image (it is not counted in `imageCount`, i.e. the
attachment alone is marked failed). -/
theorem attachment_failure_keeps_record (ch : String) (start : Int)
    (dl1 dl2 : Int → Bool) (stream : List StreamItem) :
    (scrape_channel ch start dl1 stream).messages
        = (scrape_channel ch start dl2 stream).messages
    ∧ (scrape_channel ch start dl1 stream).failed
        = (scrape_channel ch start dl2 stream).failed := by
  have h := scrapeLoop_oracle_independent ch start dl1 dl2 stream
  exact ⟨h.1, by
    show (scrapeLoop ch start dl1 stream).exc.isSome
        = (scrapeLoop ch start dl2 stream).exc.isSome
    rw [h.2.2]⟩

/-- C9: a permission/auth failure on one partition is fatal for that
partition only.  The run statistics record as failed exactly the channels
that fail validation (private/inaccessible) or abort during scraping, in
configuration order; and the total scraped-message count is the sum of
independent per-channel contributions — no channel's failure affects the
fetch of the remaining channels. -/
theorem failed_partition_isolated (env : RunEnv) (channels : List String) :
    (scrape_all_channels env channels).failed_channels
        = channels.filter (channelFails env)
    ∧ (scrape_all_channels env channels).messages_scraped
        = (channels.map (chanMessages env)).sum := by
  constructor
  · show (channels.foldl (stepChannel env) initStats).failed_channels = _
    rw [foldl_failed_channels]
    simp [initStats]
  · show (channels.foldl (stepChannel env) initStats).messages_scraped = _
    rw [foldl_messages_scraped]
    simp [initStats]

/-- C3 counterexample: in a run whose only channel receives one message and
then a rate-limit signal mandating a 60-second wait, the channel is recorded
in `failed_channels` (the signal IS treated as an error), the only sleep
performed in the whole run is the fixed 10-second inter-channel pause (the
mandated 60-second suspension never happens), and the partition consumes no
item after the signal (it is never resumed: 2 = one message + the signal). -/
theorem flood_wait_treated_as_error :
    (scrape_all_channels floodEnv ["chanA"]).failed_channels = ["chanA"]
    ∧ (scrape_all_channels floodEnv ["chanA"]).sleeps = [10]
    ∧ (scrape_channel "chanA" floodEnv.startDate (floodEnv.downloadOk "chanA")
        (floodEnv.stream "chanA")).consumed = 2 :=
  ⟨rfl, rfl, rfl⟩

/-- C3 amended: a rate-limit signal raised while iterating a partition is
caught by the generic per-channel error path (`FloodWaitError` is a subclass
of `Exception`, so `scrape_channel` catches it before the dedicated handler
of `scrape_all_channels` can): the partition's fetch ends at the signal — no
further item is requested and the partition is not resumed —, the partition
is marked failed, and the records fetched before the signal are kept. -/
theorem flood_wait_aborts_partition (ch : String) (start : Int)
    (dl : Int → Bool) (pre : List MsgIn) (w : Nat) (post : List StreamItem)
    (hpre : ∀ x ∈ pre, ¬ x.date < start) :
    (scrape_channel ch start dl (pre.map StreamItem.msg
        ++ StreamItem.exc (ExcKind.floodWait w) :: post)).failed = true
    ∧ (scrape_channel ch start dl (pre.map StreamItem.msg
        ++ StreamItem.exc (ExcKind.floodWait w) :: post)).consumed
      = pre.length + 1
    ∧ (scrape_channel ch start dl (pre.map StreamItem.msg
        ++ StreamItem.exc (ExcKind.floodWait w) :: post)).messages
      = (scrape_channel ch start dl (pre.map StreamItem.msg)).messages := by
  have h := scrapeLoop_exc_aborts ch start dl pre (ExcKind.floodWait w) post hpre
  refine ⟨?_, h.2.1, h.2.2⟩
  show (scrapeLoop ch start dl (pre.map StreamItem.msg
      ++ StreamItem.exc (ExcKind.floodWait w) :: post)).exc.isSome = true
  rw [h.1]
  rfl

/-- Witness for the C3 amended theorem at a concrete stream. -/
theorem flood_wait_aborts_partition_witness :
    (scrape_channel "chanA" 0 (fun _ => false) ([floodMsg].map StreamItem.msg
        ++ StreamItem.exc (ExcKind.floodWait 60) :: [])).failed = true
    ∧ (scrape_channel "chanA" 0 (fun _ => false) ([floodMsg].map StreamItem.msg
        ++ StreamItem.exc (ExcKind.floodWait 60) :: [])).consumed = 2 := by
  have h := flood_wait_aborts_partition "chanA" 0 (fun _ => false)
    [floodMsg] 60 [] (by decide)
  refine ⟨h.1, ?_⟩
  have h2 := h.2.1
  simpa using h2

end TelegramScraper

namespace Scheduler

/-- Modelled from the spec: the states of a WorkUnit (spec §3 WorkUnit,
§4.4).  The scheduler engine executing the graphs declared in
`dagster/jobs.py` is the Dagster library, which is not part of the
repository sources; its unit-state machine is embedded from the spec. -/
inductive UState
  | pending
  | ready
  | running
  | succeeded
  | failed
  | skipped
deriving DecidableEq, Repr

/-- A static dependency graph: upstream units and per-unit retry budget. -/
structure DepGraph (α : Type) where
  upstream : α → List α
  maxRetries : α → Nat

/-- The mutable scheduler state: per-unit status and retry count. -/
structure SchedState (α : Type) where
  status : α → UState
  retries : α → Nat

/-- Point update of one unit's status. -/
def setStatus {α : Type} [DecidableEq α] (s : SchedState α) (u : α)
    (st : UState) : SchedState α :=
  { s with status := fun v => if v = u then st else s.status v }

/-- Increment of one unit's retry count. -/
def bumpRetry {α : Type} [DecidableEq α] (s : SchedState α) (u : α) :
    SchedState α :=
  { s with retries := fun v => if v = u then s.retries v + 1 else s.retries v }

/-- Modelled from the spec (§4.4): the unit-state transitions.  A unit
becomes ready when every upstream unit is succeeded; a ready unit may start
running; a running unit succeeds, or fails — re-queued as ready while retry
budget remains, terminally failed once it is exhausted; a pending unit with a
failed or skipped upstream is skipped (skip propagates transitively). -/
inductive Step {α : Type} [DecidableEq α] (g : DepGraph α) :
    SchedState α → SchedState α → Prop
  | toReady (s : SchedState α) (u : α) :
      s.status u = UState.pending →
      (∀ v ∈ g.upstream u, s.status v = UState.succeeded) →
      Step g s (setStatus s u UState.ready)
  | start (s : SchedState α) (u : α) :
      s.status u = UState.ready →
      Step g s (setStatus s u UState.running)
  | finishOk (s : SchedState α) (u : α) :
      s.status u = UState.running →
      Step g s (setStatus s u UState.succeeded)
  | retry (s : SchedState α) (u : α) :
      s.status u = UState.running →
      s.retries u < g.maxRetries u →
      Step g s (setStatus (bumpRetry s u) u UState.ready)
  | finishFail (s : SchedState α) (u : α) :
      s.status u = UState.running →
      g.maxRetries u ≤ s.retries u →
      Step g s (setStatus s u UState.failed)
  | skip (s : SchedState α) (u : α) :
      s.status u = UState.pending →
      (∃ v ∈ g.upstream u,
        s.status v = UState.failed ∨ s.status v = UState.skipped) →
      Step g s (setStatus s u UState.skipped)

/-- Modelled from the spec (§4.4): initially every unit is pending except
sources with no upstream, which start ready. -/
def initState {α : Type} [DecidableEq α] (g : DepGraph α) : SchedState α :=
  { status := fun u =>
      if (g.upstream u).isEmpty then UState.ready else UState.pending
    retries := fun _ => 0 }

/-- States reachable in a run of the graph. -/
def Reachable {α : Type} [DecidableEq α] (g : DepGraph α)
    (s : SchedState α) : Prop :=
  Relation.ReflTransGen (Step g) (initState g) s

/-- A unit status that presupposes all upstreams succeeded. -/
def activeState (st : UState) : Prop :=
  st = UState.ready ∨ st = UState.running ∨ st = UState.succeeded
    ∨ st = UState.failed

/-- A terminal unit status. -/
def terminalState (st : UState) : Prop :=
  st = UState.succeeded ∨ st = UState.failed ∨ st = UState.skipped

/-- The scheduling invariant: any unit that is or has been running (ready,
running, succeeded or failed) has every upstream succeeded. -/
def Inv {α : Type} [DecidableEq α] (g : DepGraph α) (s : SchedState α) : Prop :=
  ∀ u, activeState (s.status u) →
    ∀ v ∈ g.upstream u, s.status v = UState.succeeded

theorem setStatus_status {α : Type} [DecidableEq α] (s : SchedState α)
    (u : α) (st : UState) (v : α) :
    (setStatus s u st).status v = if v = u then st else s.status v := rfl

theorem bumpRetry_status {α : Type} [DecidableEq α] (s : SchedState α)
    (u v : α) : (bumpRetry s u).status v = s.status v := rfl

theorem inv_init {α : Type} [DecidableEq α] (g : DepGraph α) :
    Inv g (initState g) := by
  intro u hu v hv
  rcases he : (g.upstream u).isEmpty with _ | _
  · have hpend : (initState g).status u = UState.pending := by
      show (if (g.upstream u).isEmpty = true then UState.ready
          else UState.pending) = UState.pending
      rw [he]
      simp
    rcases hu with h | h | h | h <;> rw [hpend] at h <;> cases h
  · have hnil : g.upstream u = [] := List.isEmpty_iff.mp he
    rw [hnil] at hv
    cases hv

theorem inv_setStatus {α : Type} [DecidableEq α] {g : DepGraph α}
    {s : SchedState α} (hinv : Inv g s) (u : α) (st : UState)
    (hnotsucc : s.status u ≠ UState.succeeded)
    (hactive : activeState st → ∀ v ∈ g.upstream u,
      s.status v = UState.succeeded) :
    Inv g (setStatus s u st) := by
  intro w hw v hv
  rw [setStatus_status]
  rcases eq_or_ne w u with hwu | hwu
  · rw [hwu] at hv
    rw [setStatus_status, if_pos hwu] at hw
    have hup := hactive hw
    rcases eq_or_ne v u with hvu | hvu
    · exfalso
      apply hnotsucc
      have h2 := hup v hv
      rw [hvu] at h2
      exact h2
    · rw [if_neg hvu]
      exact hup v hv
  · rw [setStatus_status, if_neg hwu] at hw
    have hup := hinv w hw
    rcases eq_or_ne v u with hvu | hvu
    · exfalso
      apply hnotsucc
      have h2 := hup v hv
      rw [hvu] at h2
      exact h2
    · rw [if_neg hvu]
      exact hup v hv

theorem inv_step {α : Type} [DecidableEq α] {g : DepGraph α}
    {s s2 : SchedState α} (hinv : Inv g s) (hstep : Step g s s2) : Inv g s2 := by
  cases hstep with
  | toReady u hu hup =>
      exact inv_setStatus hinv u UState.ready
        (by rw [hu]; intro hc; cases hc) (fun _ => hup)
  | start u hu =>
      exact inv_setStatus hinv u UState.running
        (by rw [hu]; intro hc; cases hc) (fun _ => hinv u (Or.inl hu))
  | finishOk u hu =>
      exact inv_setStatus hinv u UState.succeeded
        (by rw [hu]; intro hc; cases hc)
        (fun _ => hinv u (Or.inr (Or.inl hu)))
  | retry u hu hr =>
      exact inv_setStatus (s := bumpRetry s u) hinv u UState.ready
        (by rw [show (bumpRetry s u).status u = s.status u from rfl, hu]
            intro hc; cases hc)
        (fun _ => hinv u (Or.inr (Or.inl hu)))
  | finishFail u hu hr =>
      exact inv_setStatus hinv u UState.failed
        (by rw [hu]; intro hc; cases hc)
        (fun _ => hinv u (Or.inr (Or.inl hu)))
  | skip u hu hex =>
      refine inv_setStatus hinv u UState.skipped
        (by rw [hu]; intro hc; cases hc) ?_
      intro hac
      rcases hac with h | h | h | h <;> cases h

theorem inv_reachable {α : Type} [DecidableEq α] {g : DepGraph α}
    {s : SchedState α} (h : Reachable g s) : Inv g s := by
  induction h with
  | refl => exact inv_init g
  | tail hsteps hstep ih => exact inv_step ih hstep

theorem setStatus_preserves_other {α : Type} [DecidableEq α]
    {s : SchedState α} {u : α} {st : UState} (w : α)
    (hw : s.status w = UState.succeeded)
    (hne : s.status u ≠ UState.succeeded) :
    (setStatus s u st).status w = UState.succeeded := by
  rw [setStatus_status]
  rcases eq_or_ne w u with h | h
  · exfalso
    apply hne
    rw [← h]
    exact hw
  · rw [if_neg h]
    exact hw

theorem step_preserves_succeeded {α : Type} [DecidableEq α] {g : DepGraph α}
    {s s2 : SchedState α} (h : Step g s s2) (u : α)
    (hu : s.status u = UState.succeeded) : s2.status u = UState.succeeded := by
  cases h with
  | toReady w hw hup =>
      exact setStatus_preserves_other u hu (by rw [hw]; intro hc; cases hc)
  | start w hw =>
      exact setStatus_preserves_other u hu (by rw [hw]; intro hc; cases hc)
  | finishOk w hw =>
      exact setStatus_preserves_other u hu (by rw [hw]; intro hc; cases hc)
  | retry w hw hr =>
      exact setStatus_preserves_other (s := bumpRetry s w) u hu
        (by rw [show (bumpRetry s w).status w = s.status w from rfl, hw]
            intro hc; cases hc)
  | finishFail w hw hr =>
      exact setStatus_preserves_other u hu (by rw [hw]; intro hc; cases hc)
  | skip w hw hex =>
      exact setStatus_preserves_other u hu (by rw [hw]; intro hc; cases hc)

theorem star_preserves_succeeded {α : Type} [DecidableEq α] {g : DepGraph α}
    {s s2 : SchedState α} (h : Relation.ReflTransGen (Step g) s s2) (u : α)
    (hu : s.status u = UState.succeeded) : s2.status u = UState.succeeded := by
  induction h with
  | refl => exact hu
  | tail hsteps hstep ih => exact step_preserves_succeeded hstep u ih

/-- The names of the ops wired by `telegram_pipeline` in `dagster/jobs.py`. -/
inductive PipeUnit
  | scrape_telegram_data
  | load_raw_to_postgres
  | run_dbt_transformations
  | run_yolo_enrichment
  | load_yolo_to_warehouse
  | generate_analytics_report
  | test_fastapi_endpoints
deriving DecidableEq, Repr

/-- The dependency graph declared by `telegram_pipeline`
(`dagster/jobs.py:27-47`): scraping feeds loading, loading feeds the dbt
transformations; YOLO enrichment is a source; loading YOLO results needs the
enrichment and the dbt transformations; the analytics report needs the dbt
transformations and the loaded YOLO results; the API test needs the report.
No op configures retries. -/
def telegram_pipeline : DepGraph PipeUnit :=
  { upstream := fun u =>
      match u with
      | .scrape_telegram_data => []
      | .load_raw_to_postgres => [.scrape_telegram_data]
      | .run_dbt_transformations => [.load_raw_to_postgres]
      | .run_yolo_enrichment => []
      | .load_yolo_to_warehouse => [.run_yolo_enrichment, .run_dbt_transformations]
      | .generate_analytics_report => [.run_dbt_transformations, .load_yolo_to_warehouse]
      | .test_fastapi_endpoints => [.generate_analytics_report]
    maxRetries := fun _ => 0 }

/-- C2: in every reachable scheduler state, (1) a unit is running only when
every one of its upstream units is succeeded; (2) whenever a unit's upstream
is failed in any later state of the run, that unit is not running now — with
(1) this means a unit whose upstream eventually fails never runs at any point
of the run; (3) in a completed run (every unit terminal), a unit with a
failed upstream is in the terminal state skipped; and (4) the pipeline
declared in `dagster/jobs.py` orders fetch → load → transform → enrich →
report through its upstream lists. -/
theorem scheduler_respects_dependencies {α : Type} [DecidableEq α]
    (g : DepGraph α) (s : SchedState α) (hreach : Reachable g s) :
    (∀ u, s.status u = UState.running →
        ∀ v ∈ g.upstream u, s.status v = UState.succeeded)
    ∧ (∀ s2, Relation.ReflTransGen (Step g) s s2 → ∀ u v, v ∈ g.upstream u →
        s2.status v = UState.failed → s.status u ≠ UState.running)
    ∧ (∀ u v, v ∈ g.upstream u → s.status v = UState.failed →
        (∀ w, terminalState (s.status w)) → s.status u = UState.skipped)
    ∧ (telegram_pipeline.upstream PipeUnit.load_raw_to_postgres
          = [PipeUnit.scrape_telegram_data]
      ∧ telegram_pipeline.upstream PipeUnit.run_dbt_transformations
          = [PipeUnit.load_raw_to_postgres]
      ∧ PipeUnit.run_dbt_transformations
          ∈ telegram_pipeline.upstream PipeUnit.load_yolo_to_warehouse
      ∧ PipeUnit.load_yolo_to_warehouse
          ∈ telegram_pipeline.upstream PipeUnit.generate_analytics_report
      ∧ telegram_pipeline.upstream PipeUnit.test_fastapi_endpoints
          = [PipeUnit.generate_analytics_report]) := by
  have hinv := inv_reachable hreach
  refine ⟨?_, ?_, ?_, by decide, by decide, by decide, by decide, by decide⟩
  · intro u hu v hv
    exact hinv u (Or.inr (Or.inl hu)) v hv
  · intro s2 hstar u v hv hfail hrun
    have hsucc : s2.status v = UState.succeeded :=
      star_preserves_succeeded hstar v (hinv u (Or.inr (Or.inl hrun)) v hv)
    rw [hsucc] at hfail
    cases hfail
  · intro u v hv hfail hterm
    rcases hterm u with h | h | h
    · have h2 := hinv u (Or.inr (Or.inr (Or.inl h))) v hv
      rw [hfail] at h2
      cases h2
    · have h2 := hinv u (Or.inr (Or.inr (Or.inr h))) v hv
      rw [hfail] at h2
      cases h2
    · exact h

/-- Witness for C2: the declared pipeline graph in its initial state. -/
theorem scheduler_respects_dependencies_witness :
    (∀ u, (initState telegram_pipeline).status u = UState.running →
        ∀ v ∈ telegram_pipeline.upstream u,
          (initState telegram_pipeline).status v = UState.succeeded)
    ∧ telegram_pipeline.upstream PipeUnit.load_raw_to_postgres
        = [PipeUnit.scrape_telegram_data] :=
  ⟨(scheduler_respects_dependencies telegram_pipeline
      (initState telegram_pipeline) Relation.ReflTransGen.refl).1,
   (scheduler_respects_dependencies telegram_pipeline
      (initState telegram_pipeline) Relation.ReflTransGen.refl).2.2.2.1⟩

end Scheduler

namespace CheckpointStore

/-- Modelled from the spec (§2, §4.1): the Checkpoint Store maps a partition
key to its last-confirmed cursor (a monotonically increasing timestamp or
id), `none` before first reference.  No checkpoint-store code exists in the
repository sources — the scraper re-fetches a fixed `days_back` window
instead of resuming from a cursor — so the contract is embedded from the
spec's words. -/
def CkptStore : Type := String → Option Int

/-- Modelled from the spec (§4.1): `get_cursor(partitionKey) -> cursor|none`. -/
def get_cursor (s : CkptStore) (k : String) : Option Int := s k

/-- Modelled from the spec (§4.1): `advance_cursor(partitionKey, newCursor)`
stores the new cursor when it is newer than the stored one; calling it with a
cursor older than the stored one is a no-op, never an error. -/
def advance_cursor (s : CkptStore) (k : String) (c : Int) : CkptStore :=
  fun k2 =>
    if k2 = k then
      match s k with
      | none => some c
      | some old => if old < c then some c else some old
    else s k2

theorem advance_cursor_apply (s : CkptStore) (k : String) (c : Int) :
    advance_cursor s k c k
      = match s k with
        | none => some c
        | some old => if old < c then some c else some old := by
  show (if k = k then _ else _) = _
  rw [if_pos rfl]

theorem advance_cursor_of_some {s : CkptStore} {k : String} {old : Int}
    (h : s k = some old) (c : Int) :
    advance_cursor s k c k = some (max old c) := by
  rw [advance_cursor_apply, h]
  show (if old < c then some c else some old) = some (max old c)
  rcases lt_or_le old c with hlt | hle
  · rw [if_pos hlt, max_eq_right hlt.le]
  · rw [if_neg (not_lt.mpr hle), max_eq_left hle]

theorem advance_cursor_fold_other {k k2 : String} (hk : k2 ≠ k) :
    ∀ (cs : List Int) (s : CkptStore),
      (cs.foldl (fun s2 x => advance_cursor s2 k x) s) k2 = s k2
  | [], s => rfl
  | c :: cs, s => by
      have h1 : advance_cursor s k c k2 = s k2 := by
        show (if k2 = k then _ else _) = s k2
        rw [if_neg hk]
      rw [List.foldl_cons, advance_cursor_fold_other hk cs (advance_cursor s k c), h1]

theorem advance_cursor_fold_max (k : String) :
    ∀ (cs : List Int) (s : CkptStore) (v : Int), s k = some v →
      (cs.foldl (fun s2 x => advance_cursor s2 k x) s) k
        = some (cs.foldl max v)
  | [], s, v, h => h
  | c :: cs, s, v, h => by
      have h1 : advance_cursor s k c k = some (max v c) :=
        advance_cursor_of_some h c
      exact advance_cursor_fold_max k cs (advance_cursor s k c) (max v c) h1

/-- C4: the stored cursor is monotonic.  Starting from an unset partition,
after any sequence of `advance_cursor` calls the stored cursor is the maximum
cursor ever passed, whatever the order of the calls (first conjunct, for
every call sequence `c :: cs`); a call with a cursor older than the stored
one is a no-op on the whole store and raises no error — `advance_cursor` is
total (second conjunct); other partitions are never touched (third
conjunct). -/
theorem advance_cursor_monotonic (s0 : CkptStore) (k : String) (c : Int)
    (cs : List Int) (hnone : s0 k = none) :
    get_cursor ((c :: cs).foldl (fun s2 x => advance_cursor s2 k x) s0) k
        = some (cs.foldl max c)
    ∧ (∀ (s : CkptStore) (old c2 : Int), s k = some old → c2 < old →
        advance_cursor s k c2 = s)
    ∧ (∀ k2, k2 ≠ k →
        ((c :: cs).foldl (fun s2 x => advance_cursor s2 k x) s0) k2 = s0 k2) := by
  refine ⟨?_, ?_, ?_⟩
  · have h1 : advance_cursor s0 k c k = some c := by
      rw [advance_cursor_apply, hnone]
    exact advance_cursor_fold_max k cs (advance_cursor s0 k c) c h1
  · intro s old c2 hold hlt
    funext k2
    show (if k2 = k then _ else _) = s k2
    rcases eq_or_ne k2 k with hk | hk
    · rw [if_pos hk, hold]
      show (if old < c2 then some c2 else some old) = s k2
      rw [if_neg (not_lt.mpr hlt.le), hk]
      exact hold.symm
    · rw [if_neg hk]
  · intro k2 hk
    exact advance_cursor_fold_other hk (c :: cs) s0

/-- The empty checkpoint store. -/
def emptyCkpt : CkptStore := fun _ => none

/-- Witness for C4: out-of-order confirmations 101, 103, 102 on one
partition leave the maximum, 103, stored. -/
theorem advance_cursor_monotonic_witness :
    get_cursor (([101, 103, 102] : List Int).foldl
        (fun s2 x => advance_cursor s2 "channelA" x) emptyCkpt) "channelA"
      = some 103 := by
  have h := (advance_cursor_monotonic emptyCkpt "channelA" 101 [103, 102] rfl).1
  rw [h]
  decide

end CheckpointStore

namespace PostgreSQLResource

/-- A database connection as held by `PostgreSQLResource`
(`dagster/resources.py`): the state already committed in the database, and
the pending state of the implicitly open `psycopg2` transaction. -/
structure Conn (σ : Type) where
  committed : σ
  pending : σ

/-- What a query call returns: the rows fetched by `fetchall()` for a
`SELECT`, or `cursor.rowcount` otherwise. -/
inductive QueryResult
  | rows (rs : List (List String))
  | rowcount (n : Int)
deriving DecidableEq, Repr

/-- One SQL statement: its text (used only by the `SELECT` dispatch on
line 51; Python strings are modelled as character lists so the dispatch is
computable) and its semantics — applied to the pending transaction state it
either raises, or produces the new pending state together with the rows
`fetchall()` would return and the row count. -/
structure Query (σ : Type) where
  text : List Char
  run : σ → Except String (σ × List (List String) × Int)

/-- Python `str.strip()`: whitespace removed from both ends. -/
def pyStrip (s : List Char) : List Char :=
  ((s.dropWhile Char.isWhitespace).reverse.dropWhile Char.isWhitespace).reverse

/-- Python `str.upper()`. -/
def pyUpper (s : List Char) : List Char := s.map Char.toUpper

/-- Python `s.startswith(p)`. -/
def pyStartswith : List Char → List Char → Bool
  | _, [] => true
  | [], _ :: _ => false
  | c :: s, p :: ps => if c = p then pyStartswith s ps else false

/-- The `query.strip().upper().startswith('SELECT')` dispatch (line 51). -/
def is_select (q : List Char) : Bool :=
  pyStartswith (pyUpper (pyStrip q)) "SELECT".toList

/-- `execute_query` (`resources.py:43-59`): runs the statement on the open
transaction; if anything in the `try` raises, `rollback()` discards the
pending effects before the exception propagates; a `SELECT` returns
`fetchall()` without committing; any other statement is committed and its
row count returned. -/
def execute_query {σ : Type} (conn : Conn σ) (q : Query σ) :
    Conn σ × Except String QueryResult :=
  match q.run conn.pending with
  | .error e => ({ conn with pending := conn.committed }, .error e)
  | .ok (s2, rs, n) =>
      if is_select q.text then
        ({ conn with pending := s2 }, .ok (.rows rs))
      else
        ({ committed := s2, pending := s2 }, .ok (.rowcount n))

/-- C10: every `execute_query` call is atomic with respect to the
connection.  When the statement raises, the transaction is rolled back
before the exception propagates — the committed state is unchanged and the
pending state is reset to it, so no partial effect of the failed statement
remains (first conjunct); on success, a non-SELECT statement is committed
before the call returns (second conjunct), and a SELECT returns its rows
without touching the committed state (third conjunct). -/
theorem execute_query_atomic {σ : Type} (conn : Conn σ) (q : Query σ) :
    (∀ e, q.run conn.pending = Except.error e →
        execute_query conn q
          = ({ committed := conn.committed, pending := conn.committed },
             Except.error e))
    ∧ (∀ s2 rs n, q.run conn.pending = Except.ok (s2, rs, n) →
        is_select q.text = false →
        (execute_query conn q).1.committed = s2
        ∧ (execute_query conn q).2 = Except.ok (QueryResult.rowcount n))
    ∧ (∀ s2 rs n, q.run conn.pending = Except.ok (s2, rs, n) →
        is_select q.text = true →
        (execute_query conn q).1.committed = conn.committed
        ∧ (execute_query conn q).2 = Except.ok (QueryResult.rows rs)) := by
  refine ⟨?_, ?_, ?_⟩
  · intro e h
    simp [execute_query, h]
  · intro s2 rs n h hsel
    simp [execute_query, h, hsel]
  · intro s2 rs n h hsel
    simp [execute_query, h, hsel]

/-- A sample non-SELECT statement over an integer-counter database state. -/
def updQuery : Query Int :=
  { text := "UPDATE raw.telegram_messages SET views = views + 1".toList
    run := fun s => Except.ok (s + 1, [], 1) }

/-- Witness for C10: the sample update is committed on return. -/
theorem execute_query_atomic_witness :
    (execute_query (Conn.mk (0 : Int) 0) updQuery).1.committed = 1
    ∧ (execute_query (Conn.mk (0 : Int) 0) updQuery).2
        = Except.ok (QueryResult.rowcount 1) :=
  (execute_query_atomic (Conn.mk (0 : Int) 0) updQuery).2.1 1 [] 1 rfl (by decide)

end PostgreSQLResource
